import Mathlib

/-!
Shallow embedding of the `agentic_issues` core (src/agentic_issues/models.py,
src/agentic_issues/storage.py, and the priority sort of cli.py), with proofs
of the specification's claims about it.

Python `datetime.datetime` values are abstracted as natural-number ticks
(`DateTime := Nat`); `datetime.isoformat` / `datetime.fromisoformat` are
modelled by an injective decimal rendering of the ticks and its parser, which
keeps the library's round-trip property (`fromisoformat (isoformat t) = t`)
and the fact that a rendered timestamp is a non-empty string.  `uuid.uuid4()`
is abstracted by a seed-indexed injective generator of non-empty id strings.
-/

/-- Python `datetime.datetime`, abstracted as ticks. -/
abbrev DateTime := Nat

/-- Decimal digit to character, as used when rendering a timestamp. -/
def digitToChar (d : Nat) : Char :=
  if d = 0 then '0' else if d = 1 then '1' else if d = 2 then '2'
  else if d = 3 then '3' else if d = 4 then '4' else if d = 5 then '5'
  else if d = 6 then '6' else if d = 7 then '7' else if d = 8 then '8' else '9'

/-- Character back to decimal digit; `none` on a non-digit character. -/
def charToDigit? (c : Char) : Option Nat :=
  if c = '0' then some 0 else if c = '1' then some 1 else if c = '2' then some 2
  else if c = '3' then some 3 else if c = '4' then some 4 else if c = '5' then some 5
  else if c = '6' then some 6 else if c = '7' then some 7 else if c = '8' then some 8
  else if c = '9' then some 9 else none

lemma charToDigit_digitToChar (d : Nat) (h : d < 10) : charToDigit? (digitToChar d) = some d := by
  interval_cases d <;> rfl

/-- Little-endian decimal digits of `n`, with explicit fuel so that the
definition is structurally recursive (hence kernel-reducible). -/
def natDigitsRevAux : Nat → Nat → List Nat
  | 0, n => [n]
  | fuel + 1, n => if n < 10 then [n] else n % 10 :: natDigitsRevAux fuel (n / 10)

/-- Little-endian decimal digits of `n`. -/
def natDigitsRev (n : Nat) : List Nat := natDigitsRevAux n n

/-- Value of a little-endian decimal digit list. -/
def valRev : List Nat → Nat
  | [] => 0
  | d :: ds => d + 10 * valRev ds

lemma valRev_natDigitsRevAux (fuel n : Nat) (h : n ≤ fuel) :
    valRev (natDigitsRevAux fuel n) = n := by
  induction fuel generalizing n with
  | zero =>
    have : n = 0 := Nat.le_zero.mp h
    subst this; rfl
  | succ fuel ih =>
    by_cases hlt : n < 10
    · simp [natDigitsRevAux, hlt, valRev]
    · have hpos : 0 < n := by omega
      have hdiv : n / 10 < n := Nat.div_lt_self hpos (by omega)
      have hle : n / 10 ≤ fuel := by omega
      simp only [natDigitsRevAux, hlt, if_false, valRev, ih _ hle]
      omega

lemma valRev_natDigitsRev (n : Nat) : valRev (natDigitsRev n) = n :=
  valRev_natDigitsRevAux n n (Nat.le_refl n)

lemma natDigitsRevAux_lt_ten (fuel n : Nat) (h : n ≤ fuel) :
    ∀ d ∈ natDigitsRevAux fuel n, d < 10 := by
  induction fuel generalizing n with
  | zero =>
    have : n = 0 := Nat.le_zero.mp h
    subst this
    intro d hd
    simp [natDigitsRevAux] at hd
    omega
  | succ fuel ih =>
    intro d hd
    by_cases hlt : n < 10
    · simp [natDigitsRevAux, hlt] at hd; omega
    · simp only [natDigitsRevAux, hlt, if_false, List.mem_cons] at hd
      rcases hd with h1 | h2
      · subst h1; exact Nat.mod_lt _ (by omega)
      · have hpos : 0 < n := by omega
        have hdiv : n / 10 < n := Nat.div_lt_self hpos (by omega)
        exact ih (n / 10) (by omega) d h2

lemma natDigitsRev_ne_nil (n : Nat) : natDigitsRev n ≠ [] := by
  unfold natDigitsRev
  cases n with
  | zero => simp [natDigitsRevAux]
  | succ m =>
    simp only [natDigitsRevAux]
    by_cases h : m + 1 < 10 <;> simp [h]

/-- Characters of the decimal rendering of `n` (most significant first). -/
def natChars (n : Nat) : List Char := ((natDigitsRev n).map digitToChar).reverse

/-- Parse a little-endian list of digit characters; `none` on any non-digit. -/
def parseDigits : List Char → Option (List Nat)
  | [] => some []
  | c :: cs =>
    match charToDigit? c, parseDigits cs with
    | some d, some ds => some (d :: ds)
    | _, _ => none

lemma parseDigits_map_digitToChar (ds : List Nat) (h : ∀ d ∈ ds, d < 10) :
    parseDigits (ds.map digitToChar) = some ds := by
  induction ds with
  | nil => rfl
  | cons d ds ih =>
    have hd : d < 10 := h d (List.mem_cons_self d ds)
    have hds : ∀ x ∈ ds, x < 10 := fun x hx => h x (List.mem_cons_of_mem d hx)
    simp [parseDigits, charToDigit_digitToChar d hd, ih hds]

/-- Models `datetime.isoformat`: an injective rendering of a timestamp as a
(non-empty) string. -/
def isoformat (t : DateTime) : String := String.mk (natChars t)

/-- Models `datetime.fromisoformat`: parses a rendered timestamp back, failing
on the empty string and on non-digit characters. -/
def fromisoformat (s : String) : Option DateTime :=
  if s.data.isEmpty then none
  else (parseDigits s.data.reverse).map valRev

lemma natChars_ne_nil (t : Nat) : natChars t ≠ [] := by
  intro h
  apply natDigitsRev_ne_nil t
  have h2 : (natDigitsRev t).map digitToChar = [] := by
    have h3 := congrArg List.reverse h
    simpa [natChars] using h3
  exact List.map_eq_nil_iff.mp h2

lemma isoformat_data (t : DateTime) : (isoformat t).data = natChars t := rfl

lemma isoformat_ne_empty (t : DateTime) : isoformat t ≠ "" := by
  intro h
  exact natChars_ne_nil t (congrArg String.data h)

lemma fromisoformat_isoformat (t : DateTime) : fromisoformat (isoformat t) = some t := by
  have hrev : (natChars t).reverse = (natDigitsRev t).map digitToChar := by
    simp [natChars]
  have hempty : (natChars t).isEmpty = false := by
    cases hc : natChars t with
    | nil => exact absurd hc (natChars_ne_nil t)
    | cons c cs => rfl
  unfold fromisoformat
  rw [isoformat_data, hempty, if_neg (by simp), hrev,
    parseDigits_map_digitToChar (natDigitsRev t) (natDigitsRevAux_lt_ten t t (Nat.le_refl t))]
  simp [valRev_natDigitsRev]

/-- Models `str(uuid.uuid4())`: the random generator is abstracted by a seed;
the generated id is a non-empty string determined injectively by the seed. -/
def uuid4 (seed : Nat) : String := String.mk ('u' :: natChars seed)

lemma uuid4_ne_empty (seed : Nat) : uuid4 seed ≠ "" := by
  intro h
  have : ('u' :: natChars seed) = ([] : List Char) := congrArg String.data h
  exact List.cons_ne_nil _ _ this

lemma natChars_injective (a b : Nat) (h : natChars a = natChars b) : a = b := by
  have ha := parseDigits_map_digitToChar (natDigitsRev a) (natDigitsRevAux_lt_ten a a (Nat.le_refl a))
  have hb := parseDigits_map_digitToChar (natDigitsRev b) (natDigitsRevAux_lt_ten b b (Nat.le_refl b))
  have hmap : (natDigitsRev a).map digitToChar = (natDigitsRev b).map digitToChar := by
    have := congrArg List.reverse h
    simpa [natChars] using this
  rw [hmap, hb] at ha
  have hdig : natDigitsRev b = natDigitsRev a := Option.some.inj ha
  calc a = valRev (natDigitsRev a) := (valRev_natDigitsRev a).symm
    _ = valRev (natDigitsRev b) := by rw [hdig]
    _ = b := valRev_natDigitsRev b

lemma uuid4_injective (a b : Nat) (h : uuid4 a = uuid4 b) : a = b := by
  have hdata : ('u' :: natChars a) = ('u' :: natChars b) := congrArg String.data h
  exact natChars_injective a b (List.cons.inj hdata).2

/-- `IssueStatus` from models.py. -/
inductive IssueStatus where
  | «open»
  | in_progress
  | resolved
  | closed
deriving Repr, DecidableEq

/-- The `.value` string of an `IssueStatus` member. -/
def IssueStatus.value : IssueStatus → String
  | .«open» => "open"
  | .in_progress => "in_progress"
  | .resolved => "resolved"
  | .closed => "closed"

/-- Models the constructor call `IssueStatus(s)`: `some` member on a
recognized value string, `none` (a `ValueError` in Python) otherwise. -/
def IssueStatus.fromString? (s : String) : Option IssueStatus :=
  if s = "open" then some .«open»
  else if s = "in_progress" then some .in_progress
  else if s = "resolved" then some .resolved
  else if s = "closed" then some .closed
  else none

lemma IssueStatus.status_fromString_value (st : IssueStatus) : fromString? st.value = some st := by
  cases st <;> rfl

/-- `IssuePriority` from models.py. -/
inductive IssuePriority where
  | low
  | medium
  | high
  | critical
deriving Repr, DecidableEq

/-- The `.value` string of an `IssuePriority` member. -/
def IssuePriority.value : IssuePriority → String
  | .low => "low"
  | .medium => "medium"
  | .high => "high"
  | .critical => "critical"

/-- Models the constructor call `IssuePriority(s)`. -/
def IssuePriority.fromString? (s : String) : Option IssuePriority :=
  if s = "low" then some .low
  else if s = "medium" then some .medium
  else if s = "high" then some .high
  else if s = "critical" then some .critical
  else none

lemma IssuePriority.priority_fromString_value (p : IssuePriority) : fromString? p.value = some p := by
  cases p <;> rfl

/-- The `IssueComment` dataclass from models.py. -/
structure IssueComment where
  id : String
  issue_id : String
  author : String
  content : String
  created_at : DateTime
  updated_at : Option DateTime := none
deriving Repr, DecidableEq

/-- The `Issue` dataclass from models.py (field order as in the source). -/
structure Issue where
  id : String
  project_id : String
  title : String
  description : String
  status : IssueStatus
  priority : IssuePriority
  author : String
  assignee : Option String := none
  created_at : DateTime
  updated_at : Option DateTime := none
  comments : List IssueComment := []
  labels : List String := []
deriving Repr, DecidableEq

/-- `Issue.create` from models.py.  `seed` feeds the abstracted `uuid.uuid4()`
and `now` the `datetime.datetime.now()` default of `created_at`; the Python
default arguments `priority=IssuePriority.MEDIUM` and `labels=None` are kept,
and `labels or []` is modelled by `Option.getD` (Python's falsy `[]` and
`None` both yield `[]`). -/
def Issue.create (seed : Nat) (now : DateTime)
    (project_id title description author : String)
    (priority : IssuePriority := .medium)
    (labels : Option (List String) := none) : Issue :=
  { id := uuid4 seed
    project_id := project_id
    title := title
    description := description
    status := .«open»
    priority := priority
    author := author
    created_at := now
    labels := labels.getD [] }

/-- `Issue.add_comment` from models.py: appends a fresh comment and touches
`updated_at`; returns the updated issue together with the created comment
(`self.comments.append`/`return comment`).  `seed` abstracts the comment's
`uuid.uuid4()`; `cnow` and `unow` are the two `datetime.now()` calls. -/
def Issue.add_comment (i : Issue) (seed : Nat) (cnow unow : DateTime)
    (author content : String) : Issue × IssueComment :=
  let comment : IssueComment :=
    { id := uuid4 seed
      issue_id := i.id
      author := author
      content := content
      created_at := cnow }
  ({ i with comments := i.comments ++ [comment], updated_at := some unow }, comment)

/-- `Issue.update_status` from models.py. -/
def Issue.update_status (i : Issue) (now : DateTime) (status : IssueStatus) : Issue :=
  { i with status := status, updated_at := some now }

/-- `Issue.update_priority` from models.py. -/
def Issue.update_priority (i : Issue) (now : DateTime) (priority : IssuePriority) : Issue :=
  { i with priority := priority, updated_at := some now }

/-- `Issue.assign` from models.py. -/
def Issue.assign (i : Issue) (now : DateTime) (assignee : String) : Issue :=
  { i with assignee := some assignee, updated_at := some now }

/-- `Issue.add_label` from models.py: appends only when the label is not yet
present (case-sensitive `in` test) and touches `updated_at` only then. -/
def Issue.add_label (i : Issue) (now : DateTime) (label : String) : Issue :=
  if label ∈ i.labels then i
  else { i with labels := i.labels ++ [label], updated_at := some now }

/-- JSON values, as produced by `json.load` / consumed by `json.dump`. -/
inductive Json where
  | null
  | bool (b : Bool)
  | num (n : Nat)
  | str (s : String)
  | arr (elems : List Json)
  | obj (fields : List (String × Json))

/-- Python truthiness of a decoded JSON value (`if d["created_at"]:` …). -/
def Json.truthy : Json → Bool
  | .null => false
  | .bool b => b
  | .num n => decide (n ≠ 0)
  | .str s => !s.isEmpty
  | .arr elems => !elems.isEmpty
  | .obj fields => !fields.isEmpty

/-- Dictionary lookup (`d[k]` / `d.get(k)`); with duplicate keys the later
binding wins, as in a Python dict built by `json.load`. -/
def Json.getField (fields : List (String × Json)) (k : String) : Option Json :=
  fields.foldl (fun acc kv => if kv.1 = k then some kv.2 else acc) none

/-- Failures of `_decode_issue` (storage.py).  Python raises exceptions that
`get_issues` does not catch: `keyMissing` models a `KeyError` or a missing
required dataclass argument, `badEnum` the `ValueError` of `IssueStatus(...)`
or `IssuePriority(...)`, `badTimestamp` the `ValueError` of `fromisoformat`,
and `typeError` every remaining case in which Python would either raise a
`TypeError` or build a field whose runtime type contradicts the dataclass
annotation (unrepresentable in this typed model). -/
inductive DecodeError where
  | keyMissing (field : String)
  | badEnum (field : String) (value : Json)
  | badTimestamp (s : String)
  | typeError (context : String)

/-- `d[k]` where a missing key is a `KeyError`. -/
def Json.require (fields : List (String × Json)) (k : String) : Except DecodeError Json :=
  match Json.getField fields k with
  | some v => .ok v
  | none => .error (.keyMissing k)


/-- The conversion applied by `_decode_issue` to `issue_dict["created_at"]`
(and by the comment loop to `comment_dict["created_at"]`): a truthy value is
fed to `fromisoformat`; a falsy value is left in place, which leaves a
non-datetime in a datetime-typed field (`typeError` here). -/
def decodeReqTime (context : String) (v : Json) : Except DecodeError DateTime :=
  if v.truthy then
    match v with
    | .str s =>
      match fromisoformat s with
      | some t => .ok t
      | none => .error (.badTimestamp s)
    | _ => .error (.typeError context)
  else .error (.typeError context)

/-- The conversion applied to a present `updated_at` value: truthy values are
parsed, `null` stays unset, and any other falsy value would leave a
non-datetime in the field. -/
def decodeOptTime (context : String) (v : Json) : Except DecodeError (Option DateTime) :=
  if v.truthy then
    match v with
    | .str s =>
      match fromisoformat s with
      | some t => .ok (some t)
      | none => .error (.badTimestamp s)
    | _ => .error (.typeError context)
  else
    match v with
    | .null => .ok none
    | _ => .error (.typeError context)

/-- A required string-typed dataclass argument: missing is a `TypeError` at
construction (modelled as `keyMissing`), a non-string an ill-typed field. -/
def Json.reqString (fields : List (String × Json)) (k : String) : Except DecodeError String :=
  match Json.getField fields k with
  | some (.str s) => .ok s
  | some _ => .error (.typeError k)
  | none => .error (.keyMissing k)

/-- The `labels` value: untouched by `_decode_issue`; anything other than an
array of strings would give an ill-typed `labels` field. -/
def decodeStringList (context : String) : List Json → Except DecodeError (List String)
  | [] => .ok []
  | .str s :: rest => do
    let tail ← decodeStringList context rest
    .ok (s :: tail)
  | _ :: _ => .error (.typeError context)

/-- Field names of the `IssueComment` dataclass; any other keyword argument to
`IssueComment(**comment_dict)` is a `TypeError`. -/
def commentFieldNames : List String :=
  ["id", "issue_id", "author", "content", "created_at", "updated_at"]

/-- The comment branch of `_decode_issue` (storage.py lines 43-50): converts
the two timestamp entries of the comment dict, then `IssueComment(**d)`. -/
def decodeComment : Json → Except DecodeError IssueComment
  | .obj fs => do
    let cRaw ← Json.require fs "created_at"
    let created ← decodeReqTime "comment.created_at" cRaw
    let updated ← match Json.getField fs "updated_at" with
      | none => Except.ok none
      | some v => decodeOptTime "comment.updated_at" v
    let id ← Json.reqString fs "id"
    let issue_id ← Json.reqString fs "issue_id"
    let author ← Json.reqString fs "author"
    let content ← Json.reqString fs "content"
    if fs.all (fun kv => commentFieldNames.contains kv.1) then
      Except.ok { id := id, issue_id := issue_id, author := author, content := content,
                  created_at := created, updated_at := updated }
    else
      Except.error (.typeError "comment fields")
  | _ => .error (.typeError "comment")

/-- Decode each element of the `comments` entry.  A non-list iterable in
Python would feed non-dict elements to the comment branch (a `TypeError`)
unless it is empty, and a non-iterable raises immediately. -/
def decodeComments : Json → Except DecodeError (List IssueComment)
  | .arr elems => decodeCommentList elems
  | .str s => if s.isEmpty then .ok [] else .error (.typeError "comments")
  | .obj fs => if fs.isEmpty then .ok [] else .error (.typeError "comments")
  | _ => .error (.typeError "comments")
where
  decodeCommentList : List Json → Except DecodeError (List IssueComment)
    | [] => .ok []
    | j :: rest => do
      let c ← decodeComment j
      let tail ← decodeCommentList rest
      .ok (c :: tail)

/-- Field names of the `Issue` dataclass; any other keyword argument to
`Issue(**issue_dict)` is a `TypeError`. -/
def issueFieldNames : List String :=
  ["id", "project_id", "title", "description", "status", "priority", "author",
   "assignee", "created_at", "updated_at", "comments", "labels"]

/-- The line `issue_dict["status"] = IssueStatus(issue_dict["status"])`:
`IssueStatus(...)` raises `ValueError` on anything but a recognized value
string. -/
def decodeStatusValue (v : Json) : Except DecodeError IssueStatus :=
  match v with
  | .str s =>
    match IssueStatus.fromString? s with
    | some st => .ok st
    | none => .error (.badEnum "status" v)
  | _ => .error (.badEnum "status" v)

/-- The line `issue_dict["priority"] = IssuePriority(issue_dict["priority"])`. -/
def decodePriorityValue (v : Json) : Except DecodeError IssuePriority :=
  match v with
  | .str s =>
    match IssuePriority.fromString? s with
    | some p => .ok p
    | none => .error (.badEnum "priority" v)
  | _ => .error (.badEnum "priority" v)

/-- `_decode_issue` from storage.py: converts `status` / `priority` strings to
enum members (error on unrecognized values), converts the timestamps, decodes
the comment dicts, then `Issue(**issue_dict)`. -/
def decodeIssue : Json → Except DecodeError Issue
  | .obj fs => do
    let sRaw ← Json.require fs "status"
    let status ← decodeStatusValue sRaw
    let pRaw ← Json.require fs "priority"
    let priority ← decodePriorityValue pRaw
    let cRaw ← Json.require fs "created_at"
    let created ← decodeReqTime "created_at" cRaw
    let uRaw ← Json.require fs "updated_at"
    let updated ← decodeOptTime "updated_at" uRaw
    let comments ← match Json.getField fs "comments" with
      | none => Except.ok []
      | some v => decodeComments v
    let id ← Json.reqString fs "id"
    let project_id ← Json.reqString fs "project_id"
    let title ← Json.reqString fs "title"
    let description ← Json.reqString fs "description"
    let author ← Json.reqString fs "author"
    let assignee ← match Json.getField fs "assignee" with
      | none => Except.ok none
      | some .null => Except.ok none
      | some (.str s) => Except.ok (some s)
      | some _ => Except.error (DecodeError.typeError "assignee")
    let labels ← match Json.getField fs "labels" with
      | none => Except.ok []
      | some (.arr xs) => decodeStringList "labels" xs
      | some _ => Except.error (DecodeError.typeError "labels")
    if fs.all (fun kv => issueFieldNames.contains kv.1) then
      Except.ok { id := id, project_id := project_id, title := title,
                  description := description, status := status, priority := priority,
                  author := author, assignee := assignee, created_at := created,
                  updated_at := updated, comments := comments, labels := labels }
    else
      Except.error (.typeError "issue fields")
  | _ => .error (.typeError "issue")

/-- `None`/string union fields (`assignee`) under `dataclasses.asdict` +
`EnhancedJSONEncoder`. -/
def encodeOptStr : Option String → Json
  | none => .null
  | some s => .str s

/-- Optional timestamps serialize as `null` or the rendered timestamp. -/
def encodeOptTime : Option DateTime → Json
  | none => .null
  | some t => .str (isoformat t)

/-- The stored form of an `IssueComment`: `dataclasses.asdict` keeps the field
order, `EnhancedJSONEncoder.default` renders datetimes via `isoformat`. -/
def encodeComment (c : IssueComment) : Json :=
  .obj [("id", .str c.id), ("issue_id", .str c.issue_id), ("author", .str c.author),
        ("content", .str c.content), ("created_at", .str (isoformat c.created_at)),
        ("updated_at", encodeOptTime c.updated_at)]

/-- The stored form of an `Issue`, as written by `save_issue`
(`dataclasses.asdict` + `EnhancedJSONEncoder`): enums as their lowercase
`.value` strings, datetimes as rendered timestamps, comments as an array of
comment objects, labels as an array of strings. -/
def encodeIssue (i : Issue) : Json :=
  .obj [("id", .str i.id), ("project_id", .str i.project_id), ("title", .str i.title),
        ("description", .str i.description), ("status", .str i.status.value),
        ("priority", .str i.priority.value), ("author", .str i.author),
        ("assignee", encodeOptStr i.assignee), ("created_at", .str (isoformat i.created_at)),
        ("updated_at", encodeOptTime i.updated_at),
        ("comments", .arr (i.comments.map encodeComment)),
        ("labels", .arr (i.labels.map Json.str))]

lemma isoformat_isEmpty (t : DateTime) : (isoformat t).isEmpty = false := by
  rw [Bool.eq_false_iff]
  intro h
  exact isoformat_ne_empty t ((String.isEmpty_iff _).mp h)

lemma except_bind_ok {α β ε : Type} (a : α) (f : α → Except ε β) :
    (Except.ok a >>= f) = f a := rfl

lemma except_bind_error {α β ε : Type} (e : ε) (f : α → Except ε β) :
    ((Except.error e : Except ε α) >>= f) = Except.error e := rfl

lemma decodeComment_encodeComment (c : IssueComment) :
    decodeComment (encodeComment c) = Except.ok c := by
  obtain ⟨id, issue_id, author, content, created, updated⟩ := c
  cases updated with
  | none =>
    simp [decodeComment, encodeComment, Json.require, Json.getField, Json.reqString,
      decodeReqTime, decodeOptTime, Json.truthy, encodeOptTime, isoformat_isEmpty,
      fromisoformat_isoformat, commentFieldNames, except_bind_ok, except_bind_error]
  | some u =>
    simp [decodeComment, encodeComment, Json.require, Json.getField, Json.reqString,
      decodeReqTime, decodeOptTime, Json.truthy, encodeOptTime, isoformat_isEmpty,
      fromisoformat_isoformat, commentFieldNames, except_bind_ok, except_bind_error]

lemma decodeCommentList_map_encodeComment (cs : List IssueComment) :
    decodeComments.decodeCommentList (cs.map encodeComment) = Except.ok cs := by
  induction cs with
  | nil => rfl
  | cons c rest ih =>
    simp [decodeComments.decodeCommentList, decodeComment_encodeComment, ih,
      except_bind_ok]

lemma decodeStringList_map_str (context : String) (ls : List String) :
    decodeStringList context (ls.map Json.str) = Except.ok ls := by
  induction ls with
  | nil => rfl
  | cons l rest ih =>
    simp [decodeStringList, ih, except_bind_ok]

/-- Round trip: decoding the stored form of an issue restores the issue. -/
lemma decodeIssue_encodeIssue (i : Issue) : decodeIssue (encodeIssue i) = Except.ok i := by
  obtain ⟨id, project_id, title, description, status, priority, author,
    assignee, created, updated, comments, labels⟩ := i
  cases updated with
  | none =>
    cases assignee with
    | none =>
      simp [decodeIssue, encodeIssue, Json.require, Json.getField, Json.reqString,
        decodeReqTime, decodeOptTime, Json.truthy, encodeOptTime, encodeOptStr,
        isoformat_isEmpty, fromisoformat_isoformat, IssueStatus.status_fromString_value,
        IssuePriority.priority_fromString_value, decodeStatusValue, decodePriorityValue,
        decodeComments,
        decodeCommentList_map_encodeComment, decodeStringList_map_str,
        issueFieldNames, except_bind_ok, except_bind_error]
    | some a =>
      simp [decodeIssue, encodeIssue, Json.require, Json.getField, Json.reqString,
        decodeReqTime, decodeOptTime, Json.truthy, encodeOptTime, encodeOptStr,
        isoformat_isEmpty, fromisoformat_isoformat, IssueStatus.status_fromString_value,
        IssuePriority.priority_fromString_value, decodeStatusValue, decodePriorityValue,
        decodeComments,
        decodeCommentList_map_encodeComment, decodeStringList_map_str,
        issueFieldNames, except_bind_ok, except_bind_error]
  | some u =>
    cases assignee with
    | none =>
      simp [decodeIssue, encodeIssue, Json.require, Json.getField, Json.reqString,
        decodeReqTime, decodeOptTime, Json.truthy, encodeOptTime, encodeOptStr,
        isoformat_isEmpty, fromisoformat_isoformat, IssueStatus.status_fromString_value,
        IssuePriority.priority_fromString_value, decodeStatusValue, decodePriorityValue,
        decodeComments,
        decodeCommentList_map_encodeComment, decodeStringList_map_str,
        issueFieldNames, except_bind_ok, except_bind_error]
    | some a =>
      simp [decodeIssue, encodeIssue, Json.require, Json.getField, Json.reqString,
        decodeReqTime, decodeOptTime, Json.truthy, encodeOptTime, encodeOptStr,
        isoformat_isEmpty, fromisoformat_isoformat, IssueStatus.status_fromString_value,
        IssuePriority.priority_fromString_value, decodeStatusValue, decodePriorityValue,
        decodeComments,
        decodeCommentList_map_encodeComment, decodeStringList_map_str,
        issueFieldNames, except_bind_ok, except_bind_error]

/-- Content of a project file, at the granularity `json.load` sees it: either
text that parses as a JSON value, or text whose parse raises
`json.JSONDecodeError`.  (`json.dump`/`json.load` of the standard library are
abstracted by their round-trip property.) -/
inductive FileData where
  | jsonData (j : Json)
  | corrupt

/-- The issues directory: a map from project id (the file name stem) to the
content of `<project_id>.json`; a missing entry is a missing file. -/
abbrev Storage := List (String × FileData)

/-- `project_file.exists()` / reading the file for a project. -/
def lookupFile : Storage → String → Option FileData
  | [], _ => none
  | e :: rest, pid => if e.1 = pid then some e.2 else lookupFile rest pid

/-- `open(project_file, "w")` + `json.dump`: replaces the project's file
content (or creates the file). -/
def writeFile : Storage → String → FileData → Storage
  | [], pid, d => [(pid, d)]
  | e :: rest, pid, d => if e.1 = pid then (pid, d) :: rest else e :: writeFile rest pid d

lemma lookupFile_writeFile_self (st : Storage) (pid : String) (d : FileData) :
    lookupFile (writeFile st pid d) pid = some d := by
  induction st with
  | nil => simp [writeFile, lookupFile]
  | cons e rest ih =>
    by_cases h : e.1 = pid
    · simp [writeFile, lookupFile, h]
    · simp [writeFile, lookupFile, h, ih]

/-- The list comprehension `[_decode_issue(d) for d in issues_data]`. -/
def decodeIssueList : List Json → Except DecodeError (List Issue)
  | [] => .ok []
  | j :: rest => do
    let i ← decodeIssue j
    let tail ← decodeIssueList rest
    .ok (i :: tail)

lemma decodeIssueList_map_encodeIssue (issues : List Issue) :
    decodeIssueList (issues.map encodeIssue) = Except.ok issues := by
  induction issues with
  | nil => rfl
  | cons i rest ih =>
    simp [decodeIssueList, decodeIssue_encodeIssue, ih, except_bind_ok]

/-- `IssueStorage.get_issues` from storage.py: empty list when the file does
not exist or fails to parse as JSON (`except json.JSONDecodeError`); decode
errors on parsed data propagate.  Iterating a parsed non-list value feeds its
elements (characters or keys) to `_decode_issue`, a `TypeError` unless the
value is empty; a non-iterable value is a `TypeError` as well. -/
def get_issues (st : Storage) (project_id : String) : Except DecodeError (List Issue) :=
  match lookupFile st project_id with
  | none => .ok []
  | some .corrupt => .ok []
  | some (.jsonData j) =>
    match j with
    | .arr elems => decodeIssueList elems
    | .str s => if s.isEmpty then .ok [] else .error (.typeError "issues data")
    | .obj fs => if fs.isEmpty then .ok [] else .error (.typeError "issues data")
    | _ => .error (.typeError "issues data")

/-- The replace-in-place-or-append step of `save_issue` (the
`next((i for i, x in enumerate(issues) if x.id == issue.id), None)` lookup
followed by assignment or `append`). -/
def upsertList (issue : Issue) : List Issue → List Issue
  | [] => [issue]
  | x :: xs => if x.id = issue.id then issue :: xs else x :: upsertList issue xs

/-- `IssueStorage.save_issue` from storage.py: load all issues of the
project, replace or append the given issue, write the whole list back. -/
def save_issue (st : Storage) (issue : Issue) : Except DecodeError Storage := do
  let issues ← get_issues st issue.project_id
  Except.ok (writeFile st issue.project_id
    (.jsonData (.arr ((upsertList issue issues).map encodeIssue))))

/-- `IssueStorage.get_issue` from storage.py: first match by id, if any. -/
def get_issue (st : Storage) (project_id issue_id : String) :
    Except DecodeError (Option Issue) := do
  let issues ← get_issues st project_id
  Except.ok (issues.find? (fun i => i.id = issue_id))

/-- `IssueStorage.delete_issue` from storage.py: filter out the id; when
nothing was removed return `false` without touching the file, otherwise write
the filtered list back and return `true`. -/
def delete_issue (st : Storage) (project_id issue_id : String) :
    Except DecodeError (Storage × Bool) := do
  let issues ← get_issues st project_id
  let remaining := issues.filter (fun i => ¬ i.id = issue_id)
  if remaining.length = issues.length then
    Except.ok (st, false)
  else
    Except.ok (writeFile st project_id (.jsonData (.arr (remaining.map encodeIssue))), true)

lemma get_issues_writeFile (st : Storage) (pid : String) (issues : List Issue) :
    get_issues (writeFile st pid (.jsonData (.arr (issues.map encodeIssue)))) pid
      = Except.ok issues := by
  simp [get_issues, lookupFile_writeFile_self, decodeIssueList_map_encodeIssue]

lemma upsertList_not_mem (i : Issue) (l : List Issue) (h : i.id ∉ l.map Issue.id) :
    upsertList i l = l ++ [i] := by
  induction l with
  | nil => rfl
  | cons x xs ih =>
    have hx : ¬ x.id = i.id := by
      intro heq
      exact h (by simp [heq.symm])
    have hxs : i.id ∉ xs.map Issue.id := fun hm => h (by simp [hm])
    simp [upsertList, hx, ih hxs]

lemma mem_id_upsertList (a : String) (i : Issue) (l : List Issue)
    (h : a ∈ (upsertList i l).map Issue.id) : a = i.id ∨ a ∈ l.map Issue.id := by
  induction l with
  | nil => simpa [upsertList] using h
  | cons x xs ih =>
    by_cases hx : x.id = i.id
    · simp only [upsertList, hx, if_true, List.map_cons, List.mem_cons] at h
      rcases h with h1 | h2
      · exact Or.inl h1
      · exact Or.inr (by simp [h2])
    · simp only [upsertList, hx, if_false, List.map_cons, List.mem_cons] at h
      rcases h with h1 | h2
      · exact Or.inr (by simp [h1])
      · rcases ih h2 with h3 | h4
        · exact Or.inl h3
        · exact Or.inr (by simp [h4])

lemma nodup_id_upsertList (i : Issue) (l : List Issue)
    (h : (l.map Issue.id).Nodup) : ((upsertList i l).map Issue.id).Nodup := by
  induction l with
  | nil => simp [upsertList]
  | cons x xs ih =>
    simp only [List.map_cons, List.nodup_cons] at h
    by_cases hx : x.id = i.id
    · simp only [upsertList, hx, if_true, List.map_cons, List.nodup_cons]
      exact ⟨hx ▸ h.1, h.2⟩
    · simp only [upsertList, hx, if_false, List.map_cons, List.nodup_cons]
      refine ⟨fun hm => ?_, ih h.2⟩
      rcases mem_id_upsertList x.id i xs hm with h1 | h2
      · exact hx h1
      · exact h.1 h2

lemma filter_id_eq_nil (a : String) (l : List Issue) (h : a ∉ l.map Issue.id) :
    l.filter (fun x => x.id = a) = [] := by
  induction l with
  | nil => rfl
  | cons x xs ih =>
    have hx : ¬ x.id = a := by
      intro heq
      exact h (by simp [heq])
    have hxs : a ∉ xs.map Issue.id := fun hm => h (by simp [hm])
    simp [List.filter_cons, hx, ih hxs]

lemma filter_id_upsertList (i : Issue) (l : List Issue) (a : String)
    (ha : i.id = a) (h : (l.map Issue.id).Nodup) :
    ((upsertList i l).filter (fun x => x.id = a)).length = 1 := by
  induction l with
  | nil => simp [upsertList, List.filter_cons, ha]
  | cons x xs ih =>
    simp only [List.map_cons, List.nodup_cons] at h
    by_cases hx : x.id = i.id
    · have hxs : a ∉ xs.map Issue.id := by
        rw [← ha, ← hx]
        exact h.1
      simp [upsertList, hx, List.filter_cons, ha, filter_id_eq_nil a xs hxs]
    · have hxa : ¬ x.id = a := by rw [← ha]; exact hx
      simp [upsertList, hx, List.filter_cons, hxa, ih h.2]

lemma findIdx_upsertList (i : Issue) (l : List Issue) (a : String) (ha : i.id = a) :
    (upsertList i l).findIdx (fun x => x.id = a)
      = l.findIdx (fun x => x.id = a) := by
  induction l with
  | nil => simp [upsertList, List.findIdx_cons, ha]
  | cons x xs ih =>
    by_cases hx : x.id = i.id
    · have hxa : x.id = a := hx.trans ha
      simp [upsertList, hx, List.findIdx_cons, ha, hxa]
    · have hxa : ¬ x.id = a := by rw [← ha]; exact hx
      simp [upsertList, hx, List.findIdx_cons, hxa, ih]

lemma getElem_findIdx_upsertList (i : Issue) (l : List Issue) (a : String) (ha : i.id = a) :
    (upsertList i l)[(upsertList i l).findIdx (fun x => x.id = a)]? = some i := by
  induction l with
  | nil => simp [upsertList, List.findIdx_cons, ha]
  | cons x xs ih =>
    by_cases hx : x.id = i.id
    · have hxa : x.id = a := hx.trans ha
      simp [upsertList, hx, List.findIdx_cons, ha]
    · have hxa : ¬ x.id = a := by rw [← ha]; exact hx
      simp [upsertList, hx, List.findIdx_cons, hxa, ih]

lemma filter_ne_id_eq_self (iid : String) (l : List Issue) (h : iid ∉ l.map Issue.id) :
    l.filter (fun x => ¬ x.id = iid) = l := by
  rw [List.filter_eq_self]
  intro a ha
  simp only [decide_eq_true_eq]
  intro heq
  exact h (List.mem_map.mpr ⟨a, ha, heq⟩)

lemma filter_ne_id_length_lt (iid : String) (l : List Issue) (h : iid ∈ l.map Issue.id) :
    (l.filter (fun x => ¬ x.id = iid)).length < l.length := by
  induction l with
  | nil => simp at h
  | cons x xs ih =>
    by_cases hx : x.id = iid
    · have h1 : (decide ¬ x.id = iid) = false := by simp [hx]
      have hlen : (xs.filter (fun x => decide (¬ x.id = iid))).length ≤ xs.length :=
        List.length_filter_le _ xs
      simp only [List.filter_cons, h1, Bool.false_eq_true, if_false, List.length_cons]
      omega
    · simp only [List.map_cons, List.mem_cons] at h
      rcases h with h1 | h2
      · exact absurd h1.symm hx
      · have h1 : (decide ¬ x.id = iid) = true := by simp [hx]
        have := ih h2
        simp only [List.filter_cons, h1, if_true, List.length_cons]
        omega

/-- The `priority_order` dict of `cmd_list` (cli.py): highest severity first
(smallest key).  The dict is total on the enum, so the `.get(_, 4)` default
never applies. -/
def priority_order : IssuePriority → Nat
  | .critical => 0
  | .high => 1
  | .medium => 2
  | .low => 3

/-- Stable insertion into an already sorted list: the new element goes before
the first element of larger-or-equal key? No: strictly before the first
element whose key is strictly larger would break stability for the element
being inserted, which came EARLIER in the original list — it must go before
elements of equal key that came later.  Inserting before the first
larger-or-equal key keeps original order among equal keys because the sort
below inserts elements from last to first. -/
def insertSorted (key : Issue → Nat) (x : Issue) : List Issue → List Issue
  | [] => [x]
  | y :: ys => if key x ≤ key y then x :: y :: ys else y :: insertSorted key x ys

/-- Models Python's stable ascending `list.sort(key=...)` as stable insertion
sort (any stable comparison sort computes the same list). -/
def sortByKey (key : Issue → Nat) : List Issue → List Issue
  | [] => []
  | x :: xs => insertSorted key x (sortByKey key xs)

/-- The `args.sort == "priority"` branch of `cmd_list` (cli.py):
`issues.sort(key=lambda i: priority_order.get(i.priority, 4))`. -/
def sortByPriority (issues : List Issue) : List Issue :=
  sortByKey (fun i => priority_order i.priority) issues

/-- One mutating call of the model layer (models.py), with the abstracted
uuid seed and `datetime.now()` readings it consumes. -/
inductive MutOp where
  | addComment (seed : Nat) (cnow unow : DateTime) (author content : String)
  | updateStatus (now : DateTime) (status : IssueStatus)
  | updatePriority (now : DateTime) (priority : IssuePriority)
  | assign (now : DateTime) (assignee : String)
  | addLabel (now : DateTime) (label : String)

/-- Apply one mutation to an issue. -/
def MutOp.apply (i : Issue) : MutOp → Issue
  | .addComment seed cnow unow author content =>
    (i.add_comment seed cnow unow author content).1
  | .updateStatus now status => i.update_status now status
  | .updatePriority now priority => i.update_priority now priority
  | .assign now assignee => i.assign now assignee
  | .addLabel now label => i.add_label now label

/-- Whether this call actually mutates `i` (per the spec's no-op rule,
`add_label` with an already-present label mutates nothing). -/
def MutOp.mutates (i : Issue) : MutOp → Bool
  | .addLabel _ label => decide (label ∉ i.labels)
  | _ => true

/-- Apply a sequence of mutations in order. -/
def applyOps (i : Issue) : List MutOp → Issue
  | [] => i
  | op :: ops => applyOps (MutOp.apply i op) ops

/-- Whether some call of the sequence actually mutates the issue it is
applied to. -/
def anyMutates (i : Issue) : List MutOp → Bool
  | [] => false
  | op :: ops => MutOp.mutates i op || anyMutates (MutOp.apply i op) ops

lemma apply_updated_at_of_isSome (i : Issue) (op : MutOp)
    (h : i.updated_at.isSome = true) : ((MutOp.apply i op).updated_at).isSome = true := by
  cases op with
  | addComment seed cnow unow author content => rfl
  | updateStatus now status => rfl
  | updatePriority now priority => rfl
  | assign now assignee => rfl
  | addLabel now label =>
    by_cases hm : label ∈ i.labels
    · simpa [MutOp.apply, Issue.add_label, hm] using h
    · simp [MutOp.apply, Issue.add_label, hm]

lemma apply_updated_at_of_none (i : Issue) (op : MutOp) (h : i.updated_at = none) :
    ((MutOp.apply i op).updated_at).isSome = MutOp.mutates i op := by
  cases op with
  | addComment seed cnow unow author content => rfl
  | updateStatus now status => rfl
  | updatePriority now priority => rfl
  | assign now assignee => rfl
  | addLabel now label =>
    by_cases hm : label ∈ i.labels
    · simp [MutOp.apply, Issue.add_label, hm, MutOp.mutates, h]
    · simp [MutOp.apply, Issue.add_label, hm, MutOp.mutates]

lemma applyOps_updated_at_of_isSome (i : Issue) (ops : List MutOp)
    (h : i.updated_at.isSome = true) : ((applyOps i ops).updated_at).isSome = true := by
  induction ops generalizing i with
  | nil => exact h
  | cons op ops ih => exact ih _ (apply_updated_at_of_isSome i op h)

lemma applyOps_updated_at_iff (i : Issue) (ops : List MutOp) (h : i.updated_at = none) :
    ((applyOps i ops).updated_at).isSome = anyMutates i ops := by
  induction ops generalizing i with
  | nil => simp [applyOps, anyMutates, h]
  | cons op ops ih =>
    simp only [applyOps, anyMutates]
    by_cases hm : MutOp.mutates i op = true
    · have hsome : ((MutOp.apply i op).updated_at).isSome = true := by
        rw [apply_updated_at_of_none i op h, hm]
      rw [applyOps_updated_at_of_isSome _ _ hsome, hm]
      simp
    · have hfalse : MutOp.mutates i op = false := by
        cases hmm : MutOp.mutates i op
        · rfl
        · exact absurd hmm hm
      have hnone : (MutOp.apply i op).updated_at = none := by
        have := apply_updated_at_of_none i op h
        rw [hfalse] at this
        exact Option.not_isSome_iff_eq_none.mp (by simp [this])
      rw [ih _ hnone, hfalse]
      simp

/-- A concrete issue with a comment and a label, used to instantiate
witnesses. -/
def sampleComment : IssueComment :=
  { id := "c1", issue_id := "x", author := "alice", content := "hello",
    created_at := 3, updated_at := some 4 }

/-- A concrete issue (one comment, one label) for witness instantiation. -/
def sampleIssue : Issue :=
  { id := "x", project_id := "widget", title := "Crash on startup",
    description := "boom", status := .«open», priority := .high,
    author := "alice", assignee := some "bob", created_at := 1,
    updated_at := some 2, comments := [sampleComment], labels := ["bug"] }

/-- C1: for every `Issue` (in particular one with comments and labels),
encoding it to the stored JSON form — enums as their lowercase `.value`
strings, timestamps as rendered strings, as `save_issue` writes it — and
decoding it back with `_decode_issue` restores an issue equal to the
original in every field, nested comments, enums and optional timestamps
included. -/
theorem claim_c1_roundtrip (i : Issue) : decodeIssue (encodeIssue i) = Except.ok i :=
  decodeIssue_encodeIssue i

/-- C2: `get_issues` returns the empty list, and no error, both when the
project's file does not exist and when the file exists but fails to parse
as JSON. -/
theorem claim_c2_get_issues_empty (st : Storage) (project_id : String)
    (h : lookupFile st project_id = none ∨ lookupFile st project_id = some .corrupt) :
    get_issues st project_id = Except.ok [] := by
  rcases h with h | h <;> simp [get_issues, h]

theorem claim_c2_witness :
    get_issues [] "widget" = Except.ok []
    ∧ get_issues [("widget", FileData.corrupt)] "widget" = Except.ok [] :=
  ⟨claim_c2_get_issues_empty [] "widget" (Or.inl rfl),
   claim_c2_get_issues_empty [("widget", FileData.corrupt)] "widget" (Or.inr rfl)⟩

/-- C4: `Issue.create` yields an issue with a non-empty freshly generated id
(distinct seeds give distinct ids), status `open`, `updated_at` unset, the
supplied priority and labels (with the supplied project, title, description
and author, no assignee, and `created_at` the creation instant); with the
arguments omitted, priority defaults to `medium` and labels to `[]`. -/
theorem claim_c4_create (seed : Nat) (now : DateTime)
    (project_id title description author : String)
    (p : IssuePriority) (ls : Option (List String)) :
    let i := Issue.create seed now project_id title description author p ls
    ¬ i.id = "" ∧ i.id = uuid4 seed ∧ i.status = IssueStatus.«open»
    ∧ i.updated_at = none ∧ i.priority = p ∧ i.labels = ls.getD []
    ∧ i.project_id = project_id ∧ i.title = title ∧ i.description = description
    ∧ i.author = author ∧ i.created_at = now ∧ i.assignee = none ∧ i.comments = []
    ∧ (Issue.create seed now project_id title description author).priority
        = IssuePriority.medium
    ∧ (Issue.create seed now project_id title description author).labels = []
    ∧ (∀ seed2, ¬ seed2 = seed →
        ¬ (Issue.create seed2 now project_id title description author p ls).id = i.id) := by
  refine ⟨uuid4_ne_empty seed, rfl, rfl, rfl, rfl, rfl, rfl, rfl, rfl, rfl, rfl, rfl, rfl,
    rfl, rfl, ?_⟩
  intro seed2 hne heq
  exact hne (uuid4_injective seed2 seed heq)

theorem claim_c4_witness :
    ¬ (Issue.create 0 7 "widget" "t" "d" "alice" .high (some ["bug"])).id = ""
    ∧ (Issue.create 0 7 "widget" "t" "d" "alice" .high (some ["bug"])).status
        = IssueStatus.«open»
    ∧ (Issue.create 0 7 "widget" "t" "d" "alice" .high (some ["bug"])).updated_at = none
    ∧ (Issue.create 0 7 "widget" "t" "d" "alice" .high (some ["bug"])).priority
        = IssuePriority.high
    ∧ (Issue.create 0 7 "widget" "t" "d" "alice" .high (some ["bug"])).labels = ["bug"]
    ∧ (Issue.create 0 7 "widget" "t" "d" "alice").priority = IssuePriority.medium
    ∧ (Issue.create 0 7 "widget" "t" "d" "alice").labels = []
    ∧ ¬ (Issue.create 1 7 "widget" "t" "d" "alice" .high (some ["bug"])).id
        = (Issue.create 0 7 "widget" "t" "d" "alice" .high (some ["bug"])).id := by
  have h := claim_c4_create 0 7 "widget" "t" "d" "alice" .high (some ["bug"])
  exact ⟨h.1, h.2.2.1, h.2.2.2.1, h.2.2.2.2.1, h.2.2.2.2.2.1,
    h.2.2.2.2.2.2.2.2.2.2.2.2.2.1, h.2.2.2.2.2.2.2.2.2.2.2.2.2.2.1,
    h.2.2.2.2.2.2.2.2.2.2.2.2.2.2.2 1 (by decide)⟩

/-- C9: three issues of priorities low, critical and medium, sorted by the
priority order of `cmd_list` (descending severity), come out as critical,
medium, low. -/
theorem claim_c9_priority_sort (i1 i2 i3 : Issue)
    (h1 : i1.priority = .low) (h2 : i2.priority = .critical)
    (h3 : i3.priority = .medium) :
    sortByPriority [i1, i2, i3] = [i2, i3, i1] := by
  simp [sortByPriority, sortByKey, insertSorted, priority_order, h1, h2, h3]

/-- Concrete issues for the sort witness. -/
def lowIssue : Issue := Issue.create 1 0 "widget" "a" "d" "u" .low
def criticalIssue : Issue := Issue.create 2 0 "widget" "b" "d" "u" .critical
def mediumIssue : Issue := Issue.create 3 0 "widget" "c" "d" "u" .medium

theorem claim_c9_witness :
    sortByPriority [lowIssue, criticalIssue, mediumIssue]
      = [criticalIssue, mediumIssue, lowIssue] :=
  claim_c9_priority_sort lowIssue criticalIssue mediumIssue rfl rfl rfl

/-- C10: when a project's file holds unparseable JSON, `save_issue` silently
succeeds, rewriting the file so that the saved issue is the only stored
record — the previous content is discarded without any error. -/
theorem claim_c10_save_discards_corrupt (st : Storage) (i : Issue)
    (h : lookupFile st i.project_id = some .corrupt) :
    save_issue st i
      = Except.ok (writeFile st i.project_id (.jsonData (.arr [encodeIssue i])))
    ∧ get_issues (writeFile st i.project_id (.jsonData (.arr [encodeIssue i])))
        i.project_id = Except.ok [i] := by
  constructor
  · simp [save_issue, get_issues, h, upsertList, except_bind_ok]
  · simpa using get_issues_writeFile st i.project_id [i]

theorem claim_c10_witness :
    save_issue [("widget", FileData.corrupt)] sampleIssue
      = Except.ok (writeFile [("widget", FileData.corrupt)] "widget"
          (.jsonData (.arr [encodeIssue sampleIssue])))
    ∧ get_issues (writeFile [("widget", FileData.corrupt)] "widget"
          (.jsonData (.arr [encodeIssue sampleIssue]))) "widget"
        = Except.ok [sampleIssue] :=
  claim_c10_save_discards_corrupt [("widget", FileData.corrupt)] sampleIssue rfl

/-- C3 (amended): provided the project's file currently decodes successfully
and the stored issue ids are pairwise distinct (the spec's per-file
uniqueness invariant), saving twice with the same id and a different title
leaves exactly one stored record with that id, holding the second issue
(hence its title), at the same list position after both saves; and an id not
yet present is appended at the end. -/
theorem claim_c3_upsert (st : Storage) (i1 i2 : Issue) (l0 : List Issue)
    (hid : i2.id = i1.id) (hproj : i2.project_id = i1.project_id)
    (_htitle : ¬ i2.title = i1.title)
    (h0 : get_issues st i1.project_id = Except.ok l0)
    (hnd : (l0.map Issue.id).Nodup) :
    ∃ st1 st2,
      save_issue st i1 = Except.ok st1 ∧
      save_issue st1 i2 = Except.ok st2 ∧
      get_issues st1 i1.project_id = Except.ok (upsertList i1 l0) ∧
      get_issues st2 i1.project_id = Except.ok (upsertList i2 (upsertList i1 l0)) ∧
      ((upsertList i2 (upsertList i1 l0)).filter (fun x => x.id = i1.id)).length = 1 ∧
      (upsertList i2 (upsertList i1 l0)).findIdx (fun x => x.id = i1.id)
        = (upsertList i1 l0).findIdx (fun x => x.id = i1.id) ∧
      (upsertList i2 (upsertList i1 l0))[(upsertList i2
        (upsertList i1 l0)).findIdx (fun x => x.id = i1.id)]? = some i2 ∧
      (i1.id ∉ l0.map Issue.id → upsertList i1 l0 = l0 ++ [i1]) := by
  refine ⟨writeFile st i1.project_id
      (.jsonData (.arr ((upsertList i1 l0).map encodeIssue))),
    writeFile (writeFile st i1.project_id
        (.jsonData (.arr ((upsertList i1 l0).map encodeIssue)))) i1.project_id
      (.jsonData (.arr ((upsertList i2 (upsertList i1 l0)).map encodeIssue))),
    ?_, ?_, ?_, ?_, ?_, ?_, ?_, ?_⟩
  · simp [save_issue, h0, except_bind_ok]
  · simp [save_issue, hproj, get_issues_writeFile, except_bind_ok]
  · exact get_issues_writeFile st i1.project_id (upsertList i1 l0)
  · exact get_issues_writeFile _ i1.project_id (upsertList i2 (upsertList i1 l0))
  · exact filter_id_upsertList i2 (upsertList i1 l0) i1.id hid
      (nodup_id_upsertList i1 l0 hnd)
  · exact findIdx_upsertList i2 (upsertList i1 l0) i1.id hid
  · exact getElem_findIdx_upsertList i2 (upsertList i1 l0) i1.id hid
  · exact fun hmem => upsertList_not_mem i1 l0 hmem

/-- First save of the C3 instantiations: id "x", title "t1". -/
def c3FirstSave : Issue :=
  { id := "x", project_id := "p", title := "t1", description := "d",
    status := .«open», priority := .medium, author := "a", created_at := 0 }

/-- Second save of the C3 instantiations: same id "x", title "t2". -/
def c3SecondSave : Issue := { c3FirstSave with title := "t2" }

theorem claim_c3_witness :
    ∃ st1 st2,
      save_issue [] c3FirstSave = Except.ok st1 ∧
      save_issue st1 c3SecondSave = Except.ok st2 ∧
      get_issues st1 c3FirstSave.project_id
        = Except.ok (upsertList c3FirstSave []) ∧
      get_issues st2 c3FirstSave.project_id
        = Except.ok (upsertList c3SecondSave (upsertList c3FirstSave [])) ∧
      ((upsertList c3SecondSave (upsertList c3FirstSave [])).filter
        (fun x => x.id = c3FirstSave.id)).length = 1 ∧
      (upsertList c3SecondSave (upsertList c3FirstSave [])).findIdx
          (fun x => x.id = c3FirstSave.id)
        = (upsertList c3FirstSave []).findIdx (fun x => x.id = c3FirstSave.id) ∧
      (upsertList c3SecondSave (upsertList c3FirstSave []))[(upsertList c3SecondSave
        (upsertList c3FirstSave [])).findIdx (fun x => x.id = c3FirstSave.id)]?
        = some c3SecondSave ∧
      (c3FirstSave.id ∉ ([] : List Issue).map Issue.id →
        upsertList c3FirstSave [] = [] ++ [c3FirstSave]) :=
  claim_c3_upsert [] c3FirstSave c3SecondSave [] rfl rfl (by decide) rfl (by simp)

/-- A stored file for the C3 counterexample: the same issue id "x" appears
twice in the project's list. -/
def c3DupStore : Storage :=
  [("p", .jsonData (.arr [encodeIssue { c3FirstSave with title := "t0" },
                          encodeIssue { c3FirstSave with title := "t0" }]))]

/-- C3 counterexample: over a stored state whose file already holds two
records with id "x", saving twice with that id (titles "t1" then "t2")
leaves two stored records with the id, not exactly one — the claim's
universal quantification over every stored state fails. -/
theorem claim_c3_counterexample :
    ∃ st1 st2 l2,
      save_issue c3DupStore c3FirstSave = Except.ok st1 ∧
      save_issue st1 c3SecondSave = Except.ok st2 ∧
      get_issues st2 "p" = Except.ok l2 ∧
      ¬ (l2.filter (fun x => x.id = "x")).length = 1 :=
  ⟨_, _, _, rfl, rfl, rfl, by decide⟩

/-- C5: over a stored state whose file decodes to the list `l` (which is what
"present in the project's file" refers to; a missing or corrupt file decodes
to `[]`), `delete_issue` with an id not present returns `false` and leaves
the stored state untouched (no rewrite); with an id present it rewrites the
file without the issue and returns `true`. -/
theorem claim_c5_delete (st : Storage) (project_id issue_id : String)
    (l : List Issue) (h : get_issues st project_id = Except.ok l) :
    (issue_id ∉ l.map Issue.id →
      delete_issue st project_id issue_id = Except.ok (st, false))
    ∧ (issue_id ∈ l.map Issue.id →
      delete_issue st project_id issue_id
        = Except.ok (writeFile st project_id (.jsonData (.arr
            ((l.filter (fun x => ¬ x.id = issue_id)).map encodeIssue))), true)
      ∧ get_issues (writeFile st project_id (.jsonData (.arr
            ((l.filter (fun x => ¬ x.id = issue_id)).map encodeIssue)))) project_id
          = Except.ok (l.filter (fun x => ¬ x.id = issue_id))) := by
  constructor
  · intro hnot
    have heq : l.filter (fun x => ¬ x.id = issue_id) = l :=
      filter_ne_id_eq_self issue_id l hnot
    simp only [delete_issue, h, except_bind_ok]
    rw [heq, if_pos rfl]
  · intro hmem
    have hlt : (l.filter (fun x => ¬ x.id = issue_id)).length < l.length :=
      filter_ne_id_length_lt issue_id l hmem
    have hne : ¬ (l.filter (fun x => ¬ x.id = issue_id)).length = l.length := by omega
    refine ⟨?_, get_issues_writeFile st project_id _⟩
    simp only [delete_issue, h, except_bind_ok]
    rw [if_neg hne]

/-- The stored state for the C5 witness: project "widget" holding exactly
`sampleIssue` (id "x"). -/
def c5Store : Storage := [("widget", .jsonData (.arr [encodeIssue sampleIssue]))]

theorem claim_c5_witness :
    delete_issue c5Store "widget" "nonexistent-id" = Except.ok (c5Store, false)
    ∧ delete_issue c5Store "widget" "x"
        = Except.ok (writeFile c5Store "widget" (.jsonData (.arr
            (([sampleIssue].filter (fun x => ¬ x.id = "x")).map encodeIssue))), true) :=
  ⟨(claim_c5_delete c5Store "widget" "nonexistent-id" [sampleIssue] rfl).1 (by decide),
   ((claim_c5_delete c5Store "widget" "x" [sampleIssue] rfl).2 (by decide)).1⟩

/-- C6 (amended): provided the label occurs at most once in the issue's
labels beforehand (guaranteed by the no-duplicates invariant), two
successive `add_label L` calls leave exactly one occurrence of `L`; and,
unconditionally, the second call changes nothing (neither labels nor
`updated_at`) and an `add_label` whose label is already present is a
complete no-op. -/
theorem claim_c6_add_label (i : Issue) (L : String) (n1 n2 : DateTime) :
    (i.labels.count L ≤ 1 →
      ((i.add_label n1 L).add_label n2 L).labels.count L = 1)
    ∧ (i.add_label n1 L).add_label n2 L = i.add_label n1 L
    ∧ (L ∈ i.labels → i.add_label n1 L = i) := by
  by_cases hm : L ∈ i.labels
  · refine ⟨fun hcount => ?_, ?_, fun _ => by simp [Issue.add_label, hm]⟩
    · have hone : i.labels.count L = 1 := by
        have hpos : 0 < i.labels.count L := List.count_pos_iff.mpr hm
        omega
      simp [Issue.add_label, hm, hone]
    · simp [Issue.add_label, hm]
  · have hmem2 : L ∈ (i.labels ++ [L]) := by simp
    refine ⟨fun hcount => ?_, ?_, fun hLm => absurd hLm hm⟩
    · have hzero : i.labels.count L = 0 := List.count_eq_zero.mpr hm
      simp [Issue.add_label, hm, hmem2, List.count_append, hzero]
    · simp [Issue.add_label, hm, hmem2]

/-- The C6 witness issue: one label "bug". -/
def c6Issue : Issue := Issue.create 0 0 "widget" "t" "d" "a" .medium (some ["bug"])

theorem claim_c6_witness :
    ((c6Issue.add_label 1 "bug").add_label 2 "bug").labels.count "bug" = 1
    ∧ (c6Issue.add_label 1 "bug").add_label 2 "bug" = c6Issue.add_label 1 "bug"
    ∧ c6Issue.add_label 1 "bug" = c6Issue :=
  ⟨(claim_c6_add_label c6Issue "bug" 1 2).1 (by decide),
   (claim_c6_add_label c6Issue "bug" 1 2).2.1,
   (claim_c6_add_label c6Issue "bug" 1 2).2.2 (by decide)⟩

/-- The C6 counterexample issue: `Issue.create` accepts duplicate labels, so
an issue with labels `["dup", "dup"]` is reachable through the model API. -/
def c6DupIssue : Issue := Issue.create 0 0 "widget" "t" "d" "a" .medium (some ["dup", "dup"])

/-- C6 counterexample: on an issue whose labels already hold "dup" twice,
calling `add_label "dup"` twice leaves two occurrences, not exactly one —
the claim's quantification over every `Issue` fails. -/
theorem claim_c6_counterexample :
    ¬ ((c6DupIssue.add_label 1 "dup").add_label 2 "dup").labels.count "dup" = 1 := by
  decide

/-- C7: decoding a stored issue dict whose `status` or `priority` string lies
outside the enumerated set fails with an error — propagated un-swallowed
through `get_issues` — while recognized lowercase values and rendered
timestamps decode back to the corresponding enum members and timestamps
(witnessed by the encode/decode round trip). -/
theorem claim_c7_decode_enum :
    (∀ fs s, Json.getField fs "status" = some (.str s) →
      IssueStatus.fromString? s = none →
      ∃ e, decodeIssue (.obj fs) = Except.error e)
    ∧ (∀ fs s, Json.getField fs "priority" = some (.str s) →
      IssuePriority.fromString? s = none →
      ∃ e, decodeIssue (.obj fs) = Except.error e)
    ∧ (∀ st pid fs e, lookupFile st pid = some (.jsonData (.arr [.obj fs])) →
      decodeIssue (.obj fs) = Except.error e → get_issues st pid = Except.error e)
    ∧ (∀ i : Issue, decodeIssue (encodeIssue i) = Except.ok i) := by
  refine ⟨?_, ?_, ?_, decodeIssue_encodeIssue⟩
  · intro fs s hget hbad
    refine ⟨.badEnum "status" (.str s), ?_⟩
    simp [decodeIssue, Json.require, hget, decodeStatusValue, hbad,
      except_bind_ok, except_bind_error]
  · intro fs s hget hbad
    cases hs : Json.require fs "status" with
    | error e =>
      exact ⟨e, by simp [decodeIssue, hs, except_bind_error]⟩
    | ok v =>
      cases hd : decodeStatusValue v with
      | error e =>
        exact ⟨e, by simp [decodeIssue, hs, hd, except_bind_ok, except_bind_error]⟩
      | ok stv =>
        refine ⟨.badEnum "priority" (.str s), ?_⟩
        simp only [decodeIssue, hs, hd, except_bind_ok]
        simp [Json.require, hget, decodePriorityValue, hbad,
          except_bind_ok, except_bind_error]
  · intro st pid fs e hlook hdec
    simp [get_issues, hlook, decodeIssueList, hdec, except_bind_error]

theorem claim_c7_witness :
    (∃ e, decodeIssue (.obj [("status", .str "bogus")]) = Except.error e)
    ∧ (∃ e, decodeIssue (.obj [("status", .str "open"), ("priority", .str "urgent")])
        = Except.error e)
    ∧ get_issues [("p", .jsonData (.arr [.obj [("status", .str "bogus")]]))] "p"
        = Except.error (.badEnum "status" (.str "bogus"))
    ∧ decodeIssue (encodeIssue sampleIssue) = Except.ok sampleIssue :=
  ⟨claim_c7_decode_enum.1 [("status", .str "bogus")] "bogus" rfl rfl,
   claim_c7_decode_enum.2.1 [("status", .str "open"), ("priority", .str "urgent")]
     "urgent" rfl rfl,
   claim_c7_decode_enum.2.2.1 [("p", .jsonData (.arr [.obj [("status", .str "bogus")]]))]
     "p" [("status", .str "bogus")] (.badEnum "status" (.str "bogus")) rfl rfl,
   claim_c7_decode_enum.2.2.2 sampleIssue⟩

/-- C8: for an issue freshly produced by `Issue.create` and any finite
sequence of model mutations, `updated_at` is non-null exactly when at least
one of the calls actually mutated the issue it was applied to (an
`add_label` whose label was already present mutates nothing). -/
theorem claim_c8_updated_at (seed : Nat) (now : DateTime)
    (project_id title description author : String) (p : IssuePriority)
    (ls : Option (List String)) (ops : List MutOp) :
    (applyOps (Issue.create seed now project_id title description author p ls)
        ops).updated_at ≠ none
      ↔ anyMutates (Issue.create seed now project_id title description author p ls)
          ops = true := by
  rw [Option.ne_none_iff_isSome,
    applyOps_updated_at_iff (Issue.create seed now project_id title description author p ls)
      ops rfl]
